import Mathlib

-- Shallow embedding of source/portable/NetworkInterface/xilinx_ultrascale/x_emacpsif_dma.c
-- (FreeRTOS+TCP Xilinx Ultrascale EMAC DMA driver).
--
-- Machine integers are modelled as Nat with explicit masking where the source
-- masks.  The per-instance driver state (txHead, txTail, the TX descriptor
-- ring txSegments, the parallel buffer table pxDMA_tx_buffers and the counting
-- semaphore xTXDescriptorSemaphore) is collected into a TxState record; the
-- ring size ipconfigNIC_N_TX_DESC is the parameter N.  Buffers are identified
-- by opaque numeric ids (the payload pointers of the C code); the mapping
-- pxPacketBuffer_to_NetworkBuffer from a payload pointer to its enclosing
-- network buffer is modelled as the identity on ids.  MMIO register traffic,
-- cache maintenance and barriers are not observable in the pure model and are
-- omitted.

-- Hardware descriptor bit masks.  Modelled from the spec: the Xilinx header
-- xemacps_hw.h is not under src/; spec section 6 gives the layout
-- (TX flags word: length [13:0], LAST [15], WRAP [30], USED [31];
--  RX address word: NEW [0], WRAP [1], payload base [31:2];
--  RX flags word: length [12:0] in normal mode).
def XEMACPS_TXBUF_USED_MASK : Nat := 2 ^ 31

def XEMACPS_TXBUF_WRAP_MASK : Nat := 2 ^ 30

def XEMACPS_TXBUF_LAST_MASK : Nat := 2 ^ 15

def XEMACPS_TXBUF_LEN_MASK : Nat := 0x3FFF

def XEMACPS_RXBUF_NEW_MASK : Nat := 1

def XEMACPS_RXBUF_WRAP_MASK : Nat := 2

def XEMACPS_RXBUF_ADD_MASK : Nat := 0xFFFFFFFC

def XEMACPS_RXBUF_LEN_MASK : Nat := 0x1FFF

-- Protocol constants.  Modelled from the spec: the FreeRTOS+TCP headers
-- (FreeRTOS_IP.h and friends) are not under src/; the spec names the
-- EtherTypes ARP/IPv6/IPv4, UDP, the well-known ports LLMNR 5355, NBNS 137,
-- DNS 53, and the 13-bit fragment-offset mask.
def ipARP_FRAME_TYPE : Nat := 0x0806

def ipIPv6_FRAME_TYPE : Nat := 0x86DD

def ipIPv4_FRAME_TYPE : Nat := 0x0800

def ipPROTOCOL_UDP : Nat := 17

def ipLLMNR_PORT : Nat := 5355

def ipNBNS_PORT : Nat := 137

def ipDNS_PORT : Nat := 53

def ipFRAGMENT_OFFSET_BIT_MASK : Nat := 0x1FFF

/-- Modelled from the spec: dmaRX_TX_BUFFER_SIZE is 1536 minus the buffer
padding, or 10240 minus the padding when jumbo frames are enabled
(ipBUFFER_PADDING is defined in a header not under src/). -/
def dmaRX_TX_BUFFER_SIZE (jumbo : Bool) (padding : Nat) : Nat :=
  if jumbo then 10240 - padding else 1536 - padding

/-- xValidLength from x_emacpsif_dma.c lines 214-228: a frame length is valid
iff it is at least sizeof(struct xARP_PACKET) and at most
dmaRX_TX_BUFFER_SIZE.  The two bounds are passed as parameters minF and maxF
since both constants come from headers outside src/. -/
def xValidLength (minF maxF len : Nat) : Bool :=
  decide (minF ≤ len) && decide (len ≤ maxF)

/-- Driver TX state for one EMAC instance: the counting semaphore count
(credits), txHead, txTail, the descriptor ring words txSegments[i].flags and
txSegments[i].address, the parallel table pxDMA_tx_buffers, and whether
xTXDescriptorSemaphore has been created. -/
structure TxState where
  credits : Nat
  head : Nat
  tail : Nat
  flags : Nat → Nat
  addrs : Nat → Nat
  bufs : Nat → Option Nat
  semPresent : Bool

/-- Result of emacps_send_message: the new driver state, whether
vReleaseNetworkBufferAndDescriptor was called on the caller's buffer, whether
the frame was published (iHasSent, i.e. STARTTX asserted), and the C return
value. -/
structure SendResult where
  state : TxState
  released : Bool
  sent : Bool
  ret : Nat

/-- xSemaphoreGive on a counting semaphore created with maximum count N:
the give fails silently once the count has reached N. -/
def semGive (N c : Nat) : Nat := min (c + 1) N

/-- emacps_send_message from x_emacpsif_dma.c lines 230-324.  The do-while(0)
with breaks becomes a chain of ifs: invalid length, missing semaphore and a
failed (timed-out) xSemaphoreTake each leave the state untouched and fall
through to the release-on-fail epilogue; otherwise one credit is taken, the
payload pointer is recorded in pxDMA_tx_buffers[head], the descriptor flags
(LAST, masked length, WRAP on the last slot, USED clear) and address are
written, and txHead advances with wrap-around.  xSemaphoreTake with the
5-second timeout is modelled as succeeding iff a credit is available.
configASSERT is a no-op here. -/
def emacps_send_message (minF maxF N : Nat) (s : TxState) (len bufId : Nat)
    (rel : Bool) : SendResult :=
  if xValidLength minF maxF len ≠ true then
    { state := s, released := rel, sent := false, ret := 0 }
  else if s.semPresent ≠ true then
    { state := s, released := rel, sent := false, ret := 0 }
  else if s.credits = 0 then
    { state := s, released := rel, sent := false, ret := 0 }
  else
    { state :=
        { s with
          credits := s.credits - 1
          bufs := fun i => if i = s.head then some bufId else s.bufs i
          addrs := fun i => if i = s.head then bufId else s.addrs i
          flags := fun i =>
            if i = s.head then
              XEMACPS_TXBUF_LAST_MASK ||| (len &&& XEMACPS_TXBUF_LEN_MASK) |||
                (if s.head = N - 1 then XEMACPS_TXBUF_WRAP_MASK else 0)
            else s.flags i
          head := if s.head + 1 = N then 0 else s.head + 1 }
      released := false
      sent := true
      ret := 0 }

/-- is_tx_space_available from x_emacpsif_dma.c lines 109-124: when the TX
semaphore exists it returns ipconfigNIC_N_TX_DESC minus the semaphore count,
otherwise zero. -/
def is_tx_space_available (N : Nat) (s : TxState) : Nat :=
  if s.semPresent then N - s.credits else 0

/-- Loop body of emacps_check_tx (x_emacpsif_dma.c lines 136-183).  The local
uxCount (ipconfigNIC_N_TX_DESC minus the semaphore count) is the fuel: the
walk runs while uxCount is positive and the descriptor at txTail has its USED
bit set; inside the loop it breaks when tail has caught up with head while not
all N slots are in flight.  Each reclaimed slot has its buffer-table entry
cleared and released (collected in the returned list), its flags reset to
USED (plus WRAP on the last slot), one credit given back, and txTail advanced
with wrap-around.  The head argument is the value of txHead read once at
entry.  txReclaimSlot is the body of one reclaim iteration: the slot at
txTail has its buffer-table entry cleared, its flags reset to USED (plus WRAP
on the last slot), one credit is given back and txTail advances with
wrap-around. -/
def txReclaimSlot (N : Nat) (s : TxState) : TxState :=
  { s with
    bufs := fun i => if i = s.tail then none else s.bufs i
    flags := fun i =>
      if i = s.tail then
        if s.tail < N - 1 then XEMACPS_TXBUF_USED_MASK
        else XEMACPS_TXBUF_USED_MASK ||| XEMACPS_TXBUF_WRAP_MASK
      else s.flags i
    credits := semGive N s.credits
    tail := if s.tail + 1 = N then 0 else s.tail + 1 }

def checkTxLoop (N hd : Nat) : Nat → TxState → TxState × List Nat
  | 0, s => (s, [])
  | fuel + 1, s =>
    if s.flags s.tail &&& XEMACPS_TXBUF_USED_MASK = 0 then (s, [])
    else if s.tail = hd ∧ fuel + 1 ≠ N then (s, [])
    else
      let r := checkTxLoop N hd fuel (txReclaimSlot N s)
      (r.1, (match s.bufs s.tail with | some b => [b] | none => []) ++ r.2)

/-- emacps_check_tx from x_emacpsif_dma.c lines 126-184: reads txHead once and
walks the reclaim loop with uxCount = N minus the semaphore count.  Returns
the final state together with the list of released buffers. -/
def emacps_check_tx (N : Nat) (s : TxState) : TxState × List Nat :=
  checkTxLoop N s.head (N - s.credits) s

/-- clean_dma_txdescs from x_emacpsif_dma.c lines 605-619: every TX descriptor
gets address 0 and flags USED, the last slot gets USED with WRAP, and every
buffer-table entry is cleared. -/
def clean_dma_txdescs (N : Nat) (s : TxState) : TxState :=
  { s with
    flags := fun i =>
      if i < N then
        if i = N - 1 then XEMACPS_TXBUF_USED_MASK ||| XEMACPS_TXBUF_WRAP_MASK
        else XEMACPS_TXBUF_USED_MASK
      else s.flags i
    addrs := fun i => if i < N then 0 else s.addrs i
    bufs := fun i => if i < N then none else s.bufs i }

/-- TX state established by init_dma (x_emacpsif_dma.c lines 621-805): the
counting semaphore is created with initial count N, clean_dma_txdescs runs,
and the head and tail indices start at 0. -/
def initTxState (N : Nat) : TxState :=
  clean_dma_txdescs N
    { credits := N, head := 0, tail := 0, flags := fun _ => 0,
      addrs := fun _ => 0, bufs := fun _ => none, semPresent := true }

/-- A DMA completion step: the hardware sets the USED bit of descriptor i
after transmitting it (spec section 3: set by DMA on completion). -/
def dmaSetUsed (s : TxState) (i : Nat) : TxState :=
  { s with
    flags := fun j =>
      if j = i then s.flags j ||| XEMACPS_TXBUF_USED_MASK else s.flags j }

/-- The TX step relation: a software send (emacps_send_message), a software
reclaim (emacps_check_tx), or a hardware DMA completion that sets the USED
bit of an in-flight (USED clear) descriptor. -/
inductive TxStep (minF maxF N : Nat) : TxState → TxState → Prop
  | send (s : TxState) (len bufId : Nat) (rel : Bool) :
      TxStep minF maxF N s (emacps_send_message minF maxF N s len bufId rel).state
  | reclaim (s : TxState) :
      TxStep minF maxF N s (emacps_check_tx N s).1
  | dmaComplete (s : TxState) (i : Nat) (hi : i < N)
      (hc : s.flags i &&& XEMACPS_TXBUF_USED_MASK = 0) :
      TxStep minF maxF N s (dmaSetUsed s i)

/-- Reachability from the initialised TX state under the step relation. -/
def TxReachable (minF maxF N : Nat) (s : TxState) : Prop :=
  Relation.ReflTransGen (TxStep minF maxF N) (initTxState N) s

/-- Number of TX descriptors whose USED bit is 0 (in-flight slots, spec
section 3). -/
def countUsedZero (N : Nat) (s : TxState) : Nat :=
  ((Finset.range N).filter
    (fun i => s.flags i &&& XEMACPS_TXBUF_USED_MASK = 0)).card

/-- Ring distance from index t to index i in a ring of size N. -/
def ringDist (N t i : Nat) : Nat := (i + N - t) % N

/-- The inductive TX invariant: head, tail and the credit count are in range,
head sits N - credits slots after tail in ring order, the non-null entries of
the buffer table are exactly the claimed slots (the ring segment of length
N - credits starting at tail), and every descriptor with USED clear has a
buffer recorded. -/
def TxInv (N : Nat) (s : TxState) : Prop :=
  s.head < N ∧ s.tail < N ∧ s.credits ≤ N ∧
  s.head = (s.tail + (N - s.credits)) % N ∧
  (∀ i, i < N → ((s.bufs i).isSome ↔ ringDist N s.tail i < N - s.credits)) ∧
  (∀ i, i < N → s.flags i &&& XEMACPS_TXBUF_USED_MASK = 0 → (s.bufs i).isSome)

-- Receive path ------------------------------------------------------------

/-- The header fields of a received Ethernet frame that xMayAcceptPacket
inspects (ProtocolPacket_t view).  The two UDP ports are the values after
FreeRTOS_ntohs. -/
structure EthPacket where
  usFrameType : Nat
  usFragmentOffset : Nat
  ucVersionHeaderLength : Nat
  ucProtocol : Nat
  usSourcePort : Nat
  usDestinationPort : Nat
deriving DecidableEq

/-- xMayAcceptPacket from x_emacpsif_dma.c lines 379-450, with the
compile-time option ipconfigETHERNET_DRIVER_FILTERS_PACKETS enabled and the
three conditionally compiled well-known-port arms controlled by the flags
useLLMNR, useNBNS, useDNS.  portBound models xPortHasUDPSocket.  Note that
the DNS arm of the source tests only the source port. -/
def xMayAcceptPacket (portBound : Nat → Bool) (useLLMNR useNBNS useDNS : Bool)
    (p : EthPacket) : Bool :=
  if p.usFrameType = ipARP_FRAME_TYPE then true
  else if p.usFrameType = ipIPv6_FRAME_TYPE then true
  else if p.usFrameType ≠ ipIPv4_FRAME_TYPE then false
  else if p.usFragmentOffset &&& ipFRAGMENT_OFFSET_BIT_MASK ≠ 0 then false
  else if p.ucVersionHeaderLength < 0x45 ∨ 0x4F < p.ucVersionHeaderLength then
    false
  else if p.ucProtocol = ipPROTOCOL_UDP then
    if portBound p.usDestinationPort ≠ true ∧
        (useLLMNR = true →
          p.usDestinationPort ≠ ipLLMNR_PORT ∧ p.usSourcePort ≠ ipLLMNR_PORT) ∧
        (useNBNS = true →
          p.usDestinationPort ≠ ipNBNS_PORT ∧ p.usSourcePort ≠ ipNBNS_PORT) ∧
        (useDNS = true → p.usSourcePort ≠ ipDNS_PORT) then
      false
    else true
  else true

/-- Modelled from the claim wording of C8 (for the refutation): an IPv4/UDP
frame is accepted when the destination port is bound or when the source or
destination port equals any one of the enabled well-known ports LLMNR 5355,
NBNS 137 or DNS 53. -/
def claimAcceptPacket (portBound : Nat → Bool) (useLLMNR useNBNS useDNS : Bool)
    (p : EthPacket) : Bool :=
  if p.usFrameType = ipARP_FRAME_TYPE ∨ p.usFrameType = ipIPv6_FRAME_TYPE then
    true
  else if p.usFrameType = ipIPv4_FRAME_TYPE then
    decide (p.usFragmentOffset &&& ipFRAGMENT_OFFSET_BIT_MASK = 0 ∧
      0x45 ≤ p.ucVersionHeaderLength ∧ p.ucVersionHeaderLength ≤ 0x4F ∧
      (p.ucProtocol = ipPROTOCOL_UDP →
        portBound p.usDestinationPort = true ∨
        (useLLMNR = true ∧
          (p.usSourcePort = ipLLMNR_PORT ∨ p.usDestinationPort = ipLLMNR_PORT)) ∨
        (useNBNS = true ∧
          (p.usSourcePort = ipNBNS_PORT ∨ p.usDestinationPort = ipNBNS_PORT)) ∨
        (useDNS = true ∧
          (p.usSourcePort = ipDNS_PORT ∨ p.usDestinationPort = ipDNS_PORT))))
  else false

/-- A network buffer descriptor (NetworkBufferDescriptor_t) as far as the RX
path observes it: an opaque id standing for the pucEthernetBuffer pointer and
the frame header fields the accept filter reads. -/
structure NetBuf where
  id : Nat
  packet : EthPacket
deriving DecidableEq

/-- One RX buffer descriptor: the address word (payload base with the NEW and
WRAP bits in bits 0 and 1) and the flags word (received length in the low
bits). -/
structure RxSeg where
  address : Nat
  flags : Nat
deriving DecidableEq

/-- Driver RX state for one EMAC instance: rxHead, the descriptor ring
rxSegments, the parallel table pxDMA_rx_buffers, and the network-buffer pool
from which pxGetNetworkBufferWithDescriptor allocates. -/
structure RxState where
  rxHead : Nat
  segs : Nat → RxSeg
  bufs : Nat → Option NetBuf
  pool : List NetBuf

/-- Re-posted descriptor ring after the slot at rxHead is rewritten for
buffer b: flags cleared and the address word rebuilt from the buffer id with
the low bits masked off and WRAP on the last slot (this also clears NEW). -/
def rxRepostSeg (N : Nat) (s : RxState) (b : NetBuf) : Nat → RxSeg :=
  fun i =>
    if i = s.rxHead then
      { address := (b.id &&& XEMACPS_RXBUF_ADD_MASK) |||
          (if s.rxHead = N - 1 then XEMACPS_RXBUF_WRAP_MASK else 0),
        flags := 0 }
    else s.segs i

/-- Recycle-in-place step of emacps_check_rx: the old buffer b stays in the
slot, the descriptor is re-posted for it and rxHead advances. -/
def rxRecycleSlot (N : Nat) (s : RxState) (b : NetBuf) : RxState :=
  { s with
    segs := rxRepostSeg N s b
    rxHead := if s.rxHead + 1 = N then 0 else s.rxHead + 1 }

/-- Delivery step of emacps_check_rx: the freshly allocated buffer nb takes
the slot, the pool loses its head, the descriptor is re-posted for nb and
rxHead advances. -/
def rxDeliverSlot (N : Nat) (s : RxState) (nb : NetBuf) (rest : List NetBuf) :
    RxState :=
  { s with
    bufs := fun i => if i = s.rxHead then some nb else s.bufs i
    pool := rest
    segs := rxRepostSeg N s nb
    rxHead := if s.rxHead + 1 = N then 0 else s.rxHead + 1 }

/-- Loop body of emacps_check_rx (x_emacpsif_dma.c lines 473-591).  The loop
stops when the descriptor at rxHead has no NEW bit or no buffer is recorded
for the slot.  Otherwise the accept filter runs on the slot's buffer; if it
accepts, a replacement is allocated by pxGetNetworkBufferWithDescriptor with
timeout 0, modelled as taking the head of the pool list.  When no replacement
is obtained (filter rejected or pool empty) the old buffer is recycled in
place and nothing is delivered; otherwise the old buffer together with the
received length (rxSegments[head].flags masked) joins the delivery batch and
msgCount is incremented.  In both cases the descriptor is re-posted (which
clears the NEW bit) and rxHead advances with wrap-around.  Returns the final
state, the delivery batch in arrival order, and msgCount. -/
def checkRxLoop (N : Nat) (pb : Nat → Bool) (l n d : Bool) :
    Nat → RxState → RxState × List (NetBuf × Nat) × Nat
  | 0, s => (s, [], 0)
  | fuel + 1, s =>
    if (s.segs s.rxHead).address &&& XEMACPS_RXBUF_NEW_MASK = 0 then (s, [], 0)
    else
      match s.bufs s.rxHead with
      | none => (s, [], 0)
      | some pxBuffer =>
        if xMayAcceptPacket pb l n d pxBuffer.packet = true then
          match s.pool with
          | [] => checkRxLoop N pb l n d fuel (rxRecycleSlot N s pxBuffer)
          | nb :: rest =>
            let r := checkRxLoop N pb l n d fuel (rxDeliverSlot N s nb rest)
            (r.1,
              (pxBuffer,
                (s.segs s.rxHead).flags &&& XEMACPS_RXBUF_LEN_MASK) :: r.2.1,
              r.2.2 + 1)
        else checkRxLoop N pb l n d fuel (rxRecycleSlot N s pxBuffer)

/-- Number of RX descriptors whose NEW bit is set. -/
def countNEW (N : Nat) (s : RxState) : Nat :=
  ((Finset.range N).filter
    (fun i => (s.segs i).address &&& XEMACPS_RXBUF_NEW_MASK ≠ 0)).card

/-- emacps_check_rx from x_emacpsif_dma.c lines 452-603 (linked-RX build):
drains the ring and returns the final state, the batch handed to
prvPassEthMessages, and the returned msgCount.  Each iteration clears the NEW
bit of the slot it processes and the loop stops at the first slot without
NEW, so the number of NEW slots bounds the iteration count and serves as the
fuel. -/
def emacps_check_rx (N : Nat) (portBound : Nat → Bool)
    (useLLMNR useNBNS useDNS : Bool) (s : RxState) :
    RxState × List (NetBuf × Nat) × Nat :=
  checkRxLoop N portBound useLLMNR useNBNS useDNS (countNEW N s) s

-- Concrete states used by counterexamples and witnesses -------------------

/-- A full TX ring of size 2 in which both published frames have completed:
tail equals head, the semaphore count is 0 (both slots in flight) and both
descriptors carry the USED bit set by DMA. -/
def fullRingState : TxState :=
  { credits := 0, head := 0, tail := 0,
    flags := fun i =>
      if i = 1 then XEMACPS_TXBUF_USED_MASK ||| XEMACPS_TXBUF_WRAP_MASK
      else XEMACPS_TXBUF_USED_MASK,
    addrs := fun i => 100 + i,
    bufs := fun i => if i < 2 then some (10 + i) else none,
    semPresent := true }

/-- State after one successful publication from the initialised ring of size
2 (a 42-byte frame, buffer id 7). -/
def sentOnceState : TxState :=
  (emacps_send_message 42 1526 2 (initTxState 2) 42 7 true).state

/-- State after DMA completes the frame published in sentOnceState, before
any reclaim runs. -/
def completedOnceState : TxState := dmaSetUsed sentOnceState 0

/-- The IPv4/UDP packet refuting the C8 claim: destination port 53 (DNS),
unbound, source port 1234. -/
def dnsDestPacket : EthPacket :=
  { usFrameType := ipIPv4_FRAME_TYPE, usFragmentOffset := 0,
    ucVersionHeaderLength := 0x45, ucProtocol := ipPROTOCOL_UDP,
    usSourcePort := 1234, usDestinationPort := 53 }

/-- A one-slot RX state with a filled descriptor, used by witnesses. -/
def rxWitnessState : RxState :=
  { rxHead := 0,
    segs := fun _ => { address := 1, flags := 100 },
    bufs := fun i =>
      if i = 0 then
        some { id := 4, packet := dnsDestPacket }
      else none,
    pool := [{ id := 8, packet := dnsDestPacket }] }

/-- An RX state whose head descriptor carries no NEW bit. -/
def rxEmptyState : RxState :=
  { rxHead := 0,
    segs := fun _ => { address := 0, flags := 0 },
    bufs := fun _ => none,
    pool := [] }

-- Theorems -----------------------------------------------------------------

/-- Claim C2: emacps_send_message returns zero on every execution path
(invalid length, missing semaphore, credit timeout, and successful
publication alike). -/
theorem emacps_send_message_returns_zero (minF maxF N : Nat) (s : TxState)
    (len bufId : Nat) (rel : Bool) :
    (emacps_send_message minF maxF N s len bufId rel).ret = 0 := by
  unfold emacps_send_message
  split_ifs <;> rfl

/-- Claim C3: when the TX semaphore exists, is_tx_space_available returns the
value obtained by subtracting the semaphore count from ipconfigNIC_N_TX_DESC,
i.e. the returned value plus the semaphore count is N. -/
theorem is_tx_space_available_semaphore_complement (N : Nat) (s : TxState)
    (h1 : s.semPresent = true) (h2 : s.credits ≤ N) :
    is_tx_space_available N s + s.credits = N := by
  unfold is_tx_space_available
  rw [h1]
  simp
  omega

/-- Witness for C3 at the full ring of size 2 with semaphore count 0. -/
theorem is_tx_space_available_semaphore_complement_witness :
    fullRingState.semPresent = true ∧ fullRingState.credits ≤ 2 ∧
    is_tx_space_available 2 fullRingState + fullRingState.credits = 2 :=
  ⟨rfl, by decide,
    is_tx_space_available_semaphore_complement 2 fullRingState rfl (by decide)⟩

/-- Claim C5: on every failure of emacps_send_message the supplied buffer is
released iff the caller's release flag is set, and the driver state (txHead,
the descriptor ring and the buffer table) is left entirely unchanged. -/
theorem emacps_send_message_failure_no_partial_publication
    (minF maxF N : Nat) (s : TxState) (len bufId : Nat) (rel : Bool)
    (h : (emacps_send_message minF maxF N s len bufId rel).sent = false) :
    (emacps_send_message minF maxF N s len bufId rel).released = rel ∧
    (emacps_send_message minF maxF N s len bufId rel).state = s := by
  unfold emacps_send_message at h ⊢
  split_ifs at h ⊢ <;> simp_all

/-- Witness for C5: a zero-length frame fails and leaves the initial state of
the ring of size 2 untouched while releasing the buffer. -/
theorem emacps_send_message_failure_witness :
    (emacps_send_message 42 1526 2 (initTxState 2) 0 7 true).sent = false ∧
    (emacps_send_message 42 1526 2 (initTxState 2) 0 7 true).released = true ∧
    (emacps_send_message 42 1526 2 (initTxState 2) 0 7 true).state =
      initTxState 2 :=
  ⟨rfl,
    (emacps_send_message_failure_no_partial_publication
      42 1526 2 (initTxState 2) 0 7 true rfl).1,
    (emacps_send_message_failure_no_partial_publication
      42 1526 2 (initTxState 2) 0 7 true rfl).2⟩

/-- Claim C7: a frame is published exactly when minF and maxF bound its
length inclusively; both boundary lengths are accepted, the lengths one
outside each bound are rejected, and a rejected length fails without
consuming a TX credit. -/
theorem xValidLength_bounds_and_no_credit (minF maxF : Nat)
    (h1 : 0 < minF) (h2 : minF ≤ maxF) :
    (∀ len, xValidLength minF maxF len = true ↔ (minF ≤ len ∧ len ≤ maxF)) ∧
    xValidLength minF maxF minF = true ∧
    xValidLength minF maxF maxF = true ∧
    xValidLength minF maxF (minF - 1) = false ∧
    xValidLength minF maxF (maxF + 1) = false ∧
    (∀ N : Nat, ∀ s : TxState, ∀ len bufId : Nat, ∀ rel : Bool,
      xValidLength minF maxF len = false →
      (emacps_send_message minF maxF N s len bufId rel).sent = false ∧
      (emacps_send_message minF maxF N s len bufId rel).state.credits =
        s.credits) := by
  refine ⟨?_, ?_, ?_, ?_, ?_, ?_⟩
  · intro len
    simp [xValidLength]
  · simp [xValidLength, h2]
  · simp [xValidLength, h2]
  · simp [xValidLength]
    omega
  · simp [xValidLength]
  · intro N s len bufId rel h
    have hne : xValidLength minF maxF len ≠ true := by simp [h]
    unfold emacps_send_message
    rw [if_pos hne]
    exact ⟨rfl, rfl⟩

/-- Witness for C7 with minF = 42 (sizeof(struct xARP_PACKET)) and maxF =
dmaRX_TX_BUFFER_SIZE with padding 10 in normal mode, evaluating the boundary
lengths 42, 41, 1526 and 1527 and the no-credit consequence at length 0. -/
theorem xValidLength_bounds_witness :
    xValidLength 42 (dmaRX_TX_BUFFER_SIZE false 10) 42 = true ∧
    xValidLength 42 (dmaRX_TX_BUFFER_SIZE false 10) 41 = false ∧
    xValidLength 42 (dmaRX_TX_BUFFER_SIZE false 10) 1526 = true ∧
    xValidLength 42 (dmaRX_TX_BUFFER_SIZE false 10) 1527 = false ∧
    (emacps_send_message 42 (dmaRX_TX_BUFFER_SIZE false 10) 2 (initTxState 2)
      0 7 true).state.credits = (initTxState 2).credits :=
  ⟨(xValidLength_bounds_and_no_credit 42 (dmaRX_TX_BUFFER_SIZE false 10)
      (by decide) (by decide)).2.1,
    (xValidLength_bounds_and_no_credit 42 (dmaRX_TX_BUFFER_SIZE false 10)
      (by decide) (by decide)).2.2.2.1,
    (xValidLength_bounds_and_no_credit 42 (dmaRX_TX_BUFFER_SIZE false 10)
      (by decide) (by decide)).2.2.1,
    (xValidLength_bounds_and_no_credit 42 (dmaRX_TX_BUFFER_SIZE false 10)
      (by decide) (by decide)).2.2.2.2.1,
    ((xValidLength_bounds_and_no_credit 42 (dmaRX_TX_BUFFER_SIZE false 10)
      (by decide) (by decide)).2.2.2.2.2 2 (initTxState 2) 0 7 true
      (by decide)).2⟩

theorem checkTxLoop_head (N hd : Nat) :
    ∀ fuel s, (checkTxLoop N hd fuel s).1.head = s.head := by
  intro fuel
  induction fuel with
  | zero => intro s; rfl
  | succ n ih =>
    intro s
    by_cases h1 : s.flags s.tail &&& XEMACPS_TXBUF_USED_MASK = 0
    · simp [checkTxLoop, h1]
    · by_cases h2 : s.tail = hd ∧ n + 1 ≠ N
      · simp [checkTxLoop, h1, h2]
      · have hres :
            (checkTxLoop N hd (n + 1) s).1 =
              (checkTxLoop N hd n (txReclaimSlot N s)).1 := by
          simp [checkTxLoop, h1, h2]
        rw [hres, ih]
        rfl

theorem checkTxLoop_quiescent (N hd : Nat) :
    ∀ fuel s, fuel + s.credits = N →
      (checkTxLoop N hd fuel s).1.credits ≤ N ∧
      checkTxLoop N hd (N - (checkTxLoop N hd fuel s).1.credits)
        (checkTxLoop N hd fuel s).1 = ((checkTxLoop N hd fuel s).1, []) := by
  intro fuel
  induction fuel with
  | zero =>
    intro s hs
    have hc : s.credits = N := by omega
    constructor
    · exact hc.le
    · show checkTxLoop N hd (N - s.credits) s = (s, [])
      rw [hc]
      simp [checkTxLoop]
  | succ n ih =>
    intro s hs
    by_cases h1 : s.flags s.tail &&& XEMACPS_TXBUF_USED_MASK = 0
    · have hres : checkTxLoop N hd (n + 1) s = (s, []) := by
        simp [checkTxLoop, h1]
      rw [hres]
      refine ⟨?_, ?_⟩
      · show s.credits ≤ N
        omega
      · show checkTxLoop N hd (N - s.credits) s = (s, [])
        have hfc : N - s.credits = n + 1 := by omega
        rw [hfc]
        simp [checkTxLoop, h1]
    · by_cases h2 : s.tail = hd ∧ n + 1 ≠ N
      · have hres : checkTxLoop N hd (n + 1) s = (s, []) := by
          simp [checkTxLoop, h1, h2]
        rw [hres]
        refine ⟨?_, ?_⟩
        · show s.credits ≤ N
          omega
        · show checkTxLoop N hd (N - s.credits) s = (s, [])
          have hfc : N - s.credits = n + 1 := by omega
          rw [hfc]
          simp [checkTxLoop, h1, h2]
      · have hres :
            (checkTxLoop N hd (n + 1) s).1 =
              (checkTxLoop N hd n (txReclaimSlot N s)).1 := by
          simp [checkTxLoop, h1, h2]
        have hcr : (txReclaimSlot N s).credits = s.credits + 1 := by
          simp [txReclaimSlot, semGive]
          omega
        have ihs := ih (txReclaimSlot N s) (by omega)
        rw [hres]
        exact ⟨ihs.1, ihs.2⟩

/-- Claim C9: emacps_check_tx is idempotent: a second call in the state left
by a first call reclaims nothing, releases nothing and changes nothing. -/
theorem emacps_check_tx_idempotent (N : Nat) (s : TxState)
    (h : s.credits ≤ N) :
    emacps_check_tx N (emacps_check_tx N s).1 = ((emacps_check_tx N s).1, []) := by
  unfold emacps_check_tx
  have hq := checkTxLoop_quiescent N s.head (N - s.credits) s (by omega)
  rw [checkTxLoop_head N s.head (N - s.credits) s]
  exact hq.2

/-- Witness for C9 at the completed full ring of size 2: the first call
reclaims both slots, the second is a no-op. -/
theorem emacps_check_tx_idempotent_witness :
    fullRingState.credits ≤ 2 ∧
    emacps_check_tx 2 (emacps_check_tx 2 fullRingState).1 =
      ((emacps_check_tx 2 fullRingState).1, []) :=
  ⟨by decide, emacps_check_tx_idempotent 2 fullRingState (by decide)⟩

/-- Claim C1 counterexample: in the full ring of size 2 (tail = head and all
N slots in flight, both descriptors USED) the claim's walk would stop at once
with no effect, but emacps_check_tx reclaims both slots: it releases buffers
and returns both credits. -/
theorem emacps_check_tx_full_ring_reclaims :
    fullRingState.tail = fullRingState.head ∧
    2 - fullRingState.credits = 2 ∧
    fullRingState.flags fullRingState.tail &&& XEMACPS_TXBUF_USED_MASK ≠ 0 ∧
    emacps_check_tx 2 fullRingState ≠ (fullRingState, []) ∧
    (emacps_check_tx 2 fullRingState).1.credits = 2 := by
  have h2 : (emacps_check_tx 2 fullRingState).2 = [10, 11] := by decide
  refine ⟨rfl, by decide, by decide, ?_, by decide⟩
  intro h
  rw [h] at h2
  exact absurd h2 (by decide)

/-- Claim C1 amended: the reclaim walk advances only while the in-flight
count is positive and the descriptor at tail has USED set, and it stops
immediately when tail equals head while fewer than all N slots are in flight
(when all N are in flight the walk continues through tail = head). -/
theorem emacps_check_tx_walk_guard (N : Nat) (s : TxState)
    (hc : s.credits ≤ N) :
    (N - s.credits = 0 ∨ s.flags s.tail &&& XEMACPS_TXBUF_USED_MASK = 0 →
      emacps_check_tx N s = (s, [])) ∧
    (s.tail = s.head → 0 < s.credits → emacps_check_tx N s = (s, [])) := by
  constructor
  · intro h
    rcases h with h | h
    · unfold emacps_check_tx
      rw [h]
      simp [checkTxLoop]
    · unfold emacps_check_tx
      cases hf : N - s.credits with
      | zero => simp [checkTxLoop]
      | succ n => simp [checkTxLoop, h]
  · intro ht h0
    unfold emacps_check_tx
    cases hf : N - s.credits with
    | zero => simp [checkTxLoop]
    | succ n =>
      by_cases h1 : s.flags s.tail &&& XEMACPS_TXBUF_USED_MASK = 0
      · simp [checkTxLoop, h1]
      · have hb : s.tail = s.head ∧ n + 1 ≠ N := ⟨ht, by omega⟩
        simp [checkTxLoop, h1, hb]

/-- Witness for the amended C1 at the initialised ring of size 2: no slot is
in flight, so the walk does not advance. -/
theorem emacps_check_tx_walk_guard_witness :
    (initTxState 2).credits ≤ 2 ∧
    emacps_check_tx 2 (initTxState 2) = (initTxState 2, []) :=
  ⟨by decide,
    (emacps_check_tx_walk_guard 2 (initTxState 2) (by decide)).1
      (Or.inl (by decide))⟩

theorem udpPortCondition_iff (pb : Nat → Bool) (l n d : Bool) (src dst : Nat) :
    ¬(pb dst ≠ true ∧
        (l = true → dst ≠ ipLLMNR_PORT ∧ src ≠ ipLLMNR_PORT) ∧
        (n = true → dst ≠ ipNBNS_PORT ∧ src ≠ ipNBNS_PORT) ∧
        (d = true → src ≠ ipDNS_PORT)) ↔
    (pb dst = true ∨
      (l = true ∧ (dst = ipLLMNR_PORT ∨ src = ipLLMNR_PORT)) ∨
      (n = true ∧ (dst = ipNBNS_PORT ∨ src = ipNBNS_PORT)) ∨
      (d = true ∧ src = ipDNS_PORT)) := by
  tauto

/-- Claim C8 counterexample: an IPv4/UDP frame whose destination port is the
DNS port 53 (source port 1234, destination not bound) is accepted under the
claim's reading (source or destination equal to any enabled well-known port)
but rejected by xMayAcceptPacket, whose DNS arm tests only the source port. -/
theorem xMayAcceptPacket_dns_destination_counterexample :
    claimAcceptPacket (fun _ => false) true true true dnsDestPacket = true ∧
    xMayAcceptPacket (fun _ => false) true true true dnsDestPacket = false := by
  constructor <;> decide

/-- Claim C8 amended: xMayAcceptPacket accepts every ARP and IPv6 frame,
rejects every frame of any other non-IPv4 EtherType, and accepts an IPv4
frame iff the low 13 bits of its fragment-offset field are zero, its
version/IHL byte lies in [0x45..0x4F], and, when the protocol is UDP, either
the destination port is bound, or the source or destination port equals one
of the enabled ports LLMNR 5355 or NBNS 137, or the source port (only)
equals the enabled DNS port 53. -/
theorem xMayAcceptPacket_characterization (portBound : Nat → Bool)
    (useLLMNR useNBNS useDNS : Bool) (p : EthPacket) :
    xMayAcceptPacket portBound useLLMNR useNBNS useDNS p = true ↔
    (p.usFrameType = ipARP_FRAME_TYPE ∨ p.usFrameType = ipIPv6_FRAME_TYPE ∨
      (p.usFrameType = ipIPv4_FRAME_TYPE ∧
        p.usFragmentOffset &&& ipFRAGMENT_OFFSET_BIT_MASK = 0 ∧
        0x45 ≤ p.ucVersionHeaderLength ∧ p.ucVersionHeaderLength ≤ 0x4F ∧
        (p.ucProtocol = ipPROTOCOL_UDP →
          portBound p.usDestinationPort = true ∨
          (useLLMNR = true ∧
            (p.usDestinationPort = ipLLMNR_PORT ∨
              p.usSourcePort = ipLLMNR_PORT)) ∨
          (useNBNS = true ∧
            (p.usDestinationPort = ipNBNS_PORT ∨
              p.usSourcePort = ipNBNS_PORT)) ∨
          (useDNS = true ∧ p.usSourcePort = ipDNS_PORT)))) := by
  unfold xMayAcceptPacket
  by_cases h1 : p.usFrameType = ipARP_FRAME_TYPE
  · rw [if_pos h1]
    simp [h1, ipARP_FRAME_TYPE, ipIPv6_FRAME_TYPE, ipIPv4_FRAME_TYPE]
  · rw [if_neg h1]
    by_cases h2 : p.usFrameType = ipIPv6_FRAME_TYPE
    · rw [if_pos h2]
      simp [h2, ipARP_FRAME_TYPE, ipIPv6_FRAME_TYPE, ipIPv4_FRAME_TYPE]
    · rw [if_neg h2]
      by_cases h3 : p.usFrameType ≠ ipIPv4_FRAME_TYPE
      · rw [if_pos h3]
        simp [h1, h2, h3]
      · rw [if_neg h3]
        have h3e : p.usFrameType = ipIPv4_FRAME_TYPE := not_not.mp h3
        by_cases h4 : p.usFragmentOffset &&& ipFRAGMENT_OFFSET_BIT_MASK ≠ 0
        · rw [if_pos h4]
          simp [h1, h2, h3e, h4, ipARP_FRAME_TYPE, ipIPv6_FRAME_TYPE,
            ipIPv4_FRAME_TYPE]
        · rw [if_neg h4]
          have h4e : p.usFragmentOffset &&& ipFRAGMENT_OFFSET_BIT_MASK = 0 :=
            not_not.mp h4
          by_cases h5 : p.ucVersionHeaderLength < 0x45 ∨
              0x4F < p.ucVersionHeaderLength
          · rw [if_pos h5]
            constructor
            · intro hh
              simp at hh
            · rintro (hR | hR | ⟨-, -, ha, hb, -⟩)
              · exact absurd hR h1
              · exact absurd hR h2
              · exact absurd ha (by omega)
          · rw [if_neg h5]
            push_neg at h5
            by_cases h6 : p.ucProtocol = ipPROTOCOL_UDP
            · rw [if_pos h6]
              by_cases h7 : portBound p.usDestinationPort ≠ true ∧
                  (useLLMNR = true →
                    p.usDestinationPort ≠ ipLLMNR_PORT ∧
                      p.usSourcePort ≠ ipLLMNR_PORT) ∧
                  (useNBNS = true →
                    p.usDestinationPort ≠ ipNBNS_PORT ∧
                      p.usSourcePort ≠ ipNBNS_PORT) ∧
                  (useDNS = true → p.usSourcePort ≠ ipDNS_PORT)
              · rw [if_pos h7]
                constructor
                · intro hh
                  simp at hh
                · rintro (hR | hR | ⟨-, -, -, -, himp⟩)
                  · exact absurd hR h1
                  · exact absurd hR h2
                  · exact absurd h7
                      ((udpPortCondition_iff portBound useLLMNR useNBNS useDNS
                        p.usSourcePort p.usDestinationPort).mpr (himp h6))
              · rw [if_neg h7]
                constructor
                · intro _
                  refine Or.inr (Or.inr ⟨h3e, h4e, h5.1, h5.2, fun _ => ?_⟩)
                  exact (udpPortCondition_iff portBound useLLMNR useNBNS useDNS
                    p.usSourcePort p.usDestinationPort).mp h7
                · intro _
                  rfl
            · rw [if_neg h6]
              constructor
              · intro _
                exact Or.inr (Or.inr
                  ⟨h3e, h4e, h5.1, h5.2, fun hu => absurd hu h6⟩)
              · intro _
                rfl

theorem repost_addr_new_clear (x : Nat) (c : Prop) [Decidable c] :
    ((x &&& XEMACPS_RXBUF_ADD_MASK) |||
      (if c then XEMACPS_RXBUF_WRAP_MASK else 0)) &&&
      XEMACPS_RXBUF_NEW_MASK = 0 := by
  have hmask : XEMACPS_RXBUF_NEW_MASK = 2 ^ 0 := rfl
  rw [hmask, Nat.and_two_pow]
  have hbit :
      ((x &&& XEMACPS_RXBUF_ADD_MASK) |||
        (if c then XEMACPS_RXBUF_WRAP_MASK else 0)).testBit 0 = false := by
    rw [Nat.testBit_or, Nat.testBit_and]
    have h1 : XEMACPS_RXBUF_ADD_MASK.testBit 0 = false := by decide
    have h2 : (if c then XEMACPS_RXBUF_WRAP_MASK else 0).testBit 0 = false := by
      split_ifs
      · decide
      · decide
    rw [h1, h2]
    simp
  rw [hbit]
  rfl

theorem rxRepostSeg_head_new_clear (N : Nat) (s : RxState) (b : NetBuf) :
    (rxRepostSeg N s b s.rxHead).address &&& XEMACPS_RXBUF_NEW_MASK = 0 := by
  unfold rxRepostSeg
  rw [if_pos rfl]
  exact repost_addr_new_clear b.id (s.rxHead = N - 1)

theorem checkRxLoop_count_eq_length (N : Nat) (pb : Nat → Bool)
    (l n d : Bool) :
    ∀ fuel s, (checkRxLoop N pb l n d fuel s).2.2 =
      (checkRxLoop N pb l n d fuel s).2.1.length := by
  intro fuel
  induction fuel with
  | zero => intro s; rfl
  | succ k ih =>
    intro s
    by_cases h1 : (s.segs s.rxHead).address &&& XEMACPS_RXBUF_NEW_MASK = 0
    · simp [checkRxLoop, h1]
    · cases hb : s.bufs s.rxHead with
      | none => simp [checkRxLoop, h1, hb]
      | some pxBuffer =>
        by_cases hA : xMayAcceptPacket pb l n d pxBuffer.packet = true
        · cases hp : s.pool with
          | nil =>
            simp [checkRxLoop, h1, hb, hA, hp]
            exact ih (rxRecycleSlot N s pxBuffer)
          | cons nb rest =>
            simp [checkRxLoop, h1, hb, hA, hp]
            exact ih (rxDeliverSlot N s nb rest)
        · simp [checkRxLoop, h1, hb, hA]
          exact ih (rxRecycleSlot N s pxBuffer)

/-- Claim C10: emacps_check_rx returns exactly the number of frames it handed
to the stack (the length of the delivery batch); rejected and dropped frames
do not contribute, and a call that finds no NEW descriptor at rxHead returns
0 and does nothing. -/
theorem emacps_check_rx_count_messages (N : Nat) (pb : Nat → Bool)
    (l n d : Bool) (s : RxState) :
    (emacps_check_rx N pb l n d s).2.2 =
      (emacps_check_rx N pb l n d s).2.1.length ∧
    ((s.segs s.rxHead).address &&& XEMACPS_RXBUF_NEW_MASK = 0 →
      emacps_check_rx N pb l n d s = (s, [], 0)) := by
  constructor
  · exact checkRxLoop_count_eq_length N pb l n d (countNEW N s) s
  · intro h
    unfold emacps_check_rx
    cases hf : countNEW N s with
    | zero => rfl
    | succ k => simp [checkRxLoop, h]

/-- Witness for C10 at a drained ring: no NEW descriptor, so the count is 0
and the state is untouched. -/
theorem emacps_check_rx_count_messages_witness :
    (emacps_check_rx 1 (fun _ => false) true true true rxEmptyState).2.2 =
      (emacps_check_rx 1 (fun _ => false) true true true
        rxEmptyState).2.1.length ∧
    emacps_check_rx 1 (fun _ => false) true true true rxEmptyState =
      (rxEmptyState, [], 0) :=
  ⟨(emacps_check_rx_count_messages 1 (fun _ => false) true true true
      rxEmptyState).1,
    (emacps_check_rx_count_messages 1 (fun _ => false) true true true
      rxEmptyState).2 (by decide)⟩

theorem checkRxLoop_slots (N : Nat) (pb : Nat → Bool) (l n d : Bool) :
    ∀ fuel s,
      s.pool.Nodup →
      (∀ b, b ∈ s.pool → ∀ i, s.bufs i ≠ some b) →
      (∀ i j b, s.bufs i = some b → s.bufs j = some b → i = j) →
      (∀ i, (s.bufs i).isSome = true →
        ((checkRxLoop N pb l n d fuel s).1.bufs i).isSome = true) ∧
      (∀ i, (checkRxLoop N pb l n d fuel s).1.bufs i = s.bufs i ∨
        ∃ old nb, s.bufs i = some old ∧
          (checkRxLoop N pb l n d fuel s).1.bufs i = some nb ∧
          nb ∈ s.pool ∧ nb ≠ old ∧
          ∃ len, (old, len) ∈ (checkRxLoop N pb l n d fuel s).2.1) ∧
      (∀ b len, (b, len) ∈ (checkRxLoop N pb l n d fuel s).2.1 →
        ∃ i, s.bufs i = some b ∧
          ∃ nb, (checkRxLoop N pb l n d fuel s).1.bufs i = some nb ∧
            nb ≠ b) ∧
      (∀ b len, (b, len) ∈ (checkRxLoop N pb l n d fuel s).2.1 →
        ∀ j, (checkRxLoop N pb l n d fuel s).1.bufs j ≠ some b) ∧
      (∀ b len, (b, len) ∈ (checkRxLoop N pb l n d fuel s).2.1 →
        ∃ i, (s.segs i).address &&& XEMACPS_RXBUF_NEW_MASK ≠ 0 ∧
          s.bufs i = some b) := by
  intro fuel
  induction fuel with
  | zero =>
    intro s hnd hdisj hinj
    refine ⟨fun i h => h, fun i => Or.inl rfl, ?_, ?_, ?_⟩ <;>
      · intro b len hmem
        simp [checkRxLoop] at hmem
  | succ k ih =>
    intro s hnd hdisj hinj
    by_cases h1 : (s.segs s.rxHead).address &&& XEMACPS_RXBUF_NEW_MASK = 0
    · have hres : checkRxLoop N pb l n d (k + 1) s = (s, [], 0) := by
        simp [checkRxLoop, h1]
      rw [hres]
      exact ⟨fun i h => h, fun i => Or.inl rfl,
        fun b len hmem => absurd hmem (by simp),
        fun b len hmem => absurd hmem (by simp),
        fun b len hmem => absurd hmem (by simp)⟩
    · cases hb : s.bufs s.rxHead with
      | none =>
        have hres : checkRxLoop N pb l n d (k + 1) s = (s, [], 0) := by
          simp [checkRxLoop, h1, hb]
        rw [hres]
        exact ⟨fun i h => h, fun i => Or.inl rfl,
          fun b len hmem => absurd hmem (by simp),
          fun b len hmem => absurd hmem (by simp),
          fun b len hmem => absurd hmem (by simp)⟩
      | some pxBuffer =>
        by_cases hA : xMayAcceptPacket pb l n d pxBuffer.packet = true
        · by_cases hpe : s.pool = []
          · have hp : s.pool = [] := hpe
            have hres : checkRxLoop N pb l n d (k + 1) s =
                checkRxLoop N pb l n d k (rxRecycleSlot N s pxBuffer) := by
              simp [checkRxLoop, h1, hb, hA, hp]
            rw [hres]
            obtain ⟨ha, hbc, hc, hf, hg⟩ :=
              ih (rxRecycleSlot N s pxBuffer) hnd hdisj hinj
            refine ⟨ha, hbc, hc, hf, ?_⟩
            intro b len hmem
            obtain ⟨i, hN1, hb1⟩ := hg b len hmem
            by_cases hieq : i = s.rxHead
            · exfalso
              apply hN1
              rw [hieq]
              exact rxRepostSeg_head_new_clear N s pxBuffer
            · refine ⟨i, ?_, hb1⟩
              have hseq : rxRepostSeg N s pxBuffer i = s.segs i := by
                unfold rxRepostSeg
                rw [if_neg hieq]
              rw [show (rxRecycleSlot N s pxBuffer).segs i =
                  rxRepostSeg N s pxBuffer i from rfl, hseq] at hN1
              exact hN1
          · obtain ⟨nb, rest, hp⟩ : ∃ a as, s.pool = a :: as := by
              cases hq : s.pool with
              | nil => exact absurd hq hpe
              | cons a as => exact ⟨a, as, rfl⟩
            have hnbpool : nb ∈ s.pool := by
              rw [hp]
              exact List.mem_cons_self nb rest
            have hrestsub : ∀ x, x ∈ rest → x ∈ s.pool := by
              intro x hx
              rw [hp]
              exact List.mem_cons_of_mem nb hx
            have hnb_ne : ∀ j b2, s.bufs j = some b2 → nb ≠ b2 := by
              intro j b2 hj hEq
              exact hdisj nb hnbpool j (by rw [hEq]; exact hj)
            have hnp : nb ∉ rest := by
              have := hp ▸ hnd
              exact (List.nodup_cons.mp this).1
            have hndrest : rest.Nodup := by
              have := hp ▸ hnd
              exact (List.nodup_cons.mp this).2
            have hdisj1 : ∀ b2, b2 ∈ rest →
                ∀ i, (rxDeliverSlot N s nb rest).bufs i ≠ some b2 := by
              intro b2 hb2 i
              by_cases hieq : i = s.rxHead
              · rw [show (rxDeliverSlot N s nb rest).bufs i = some nb from by
                  simp [rxDeliverSlot, hieq]]
                intro hEq
                injection hEq with hEq2
                exact hnp (hEq2 ▸ hb2)
              · rw [show (rxDeliverSlot N s nb rest).bufs i = s.bufs i from by
                  simp [rxDeliverSlot, hieq]]
                exact hdisj b2 (hrestsub _ hb2) i
            have hinj1 : ∀ i j b2, (rxDeliverSlot N s nb rest).bufs i = some b2 →
                (rxDeliverSlot N s nb rest).bufs j = some b2 → i = j := by
              intro i j b2 hi hj
              by_cases hie : i = s.rxHead <;> by_cases hje : j = s.rxHead
              · rw [hie, hje]
              · exfalso
                rw [show (rxDeliverSlot N s nb rest).bufs i = some nb from by
                  simp [rxDeliverSlot, hie]] at hi
                injection hi with hi2
                rw [show (rxDeliverSlot N s nb rest).bufs j = s.bufs j from by
                  simp [rxDeliverSlot, hje]] at hj
                exact hdisj nb hnbpool j (by rw [hj, hi2])
              · exfalso
                rw [show (rxDeliverSlot N s nb rest).bufs j = some nb from by
                  simp [rxDeliverSlot, hje]] at hj
                injection hj with hj2
                rw [show (rxDeliverSlot N s nb rest).bufs i = s.bufs i from by
                  simp [rxDeliverSlot, hie]] at hi
                exact hdisj nb hnbpool i (by rw [hi, hj2])
              · rw [show (rxDeliverSlot N s nb rest).bufs i = s.bufs i from by
                  simp [rxDeliverSlot, hie]] at hi
                rw [show (rxDeliverSlot N s nb rest).bufs j = s.bufs j from by
                  simp [rxDeliverSlot, hje]] at hj
                exact hinj i j b2 hi hj
            obtain ⟨ha, hbc, hc, hf, hg⟩ :=
              ih (rxDeliverSlot N s nb rest) hndrest hdisj1 hinj1
            have hres : checkRxLoop N pb l n d (k + 1) s =
                ((checkRxLoop N pb l n d k (rxDeliverSlot N s nb rest)).1,
                  (pxBuffer,
                    (s.segs s.rxHead).flags &&& XEMACPS_RXBUF_LEN_MASK) ::
                    (checkRxLoop N pb l n d k (rxDeliverSlot N s nb rest)).2.1,
                  (checkRxLoop N pb l n d k
                    (rxDeliverSlot N s nb rest)).2.2 + 1) := by
              simp [checkRxLoop, h1, hb, hA, hp]
            rw [hres]
            refine ⟨?_, ?_, ?_, ?_, ?_⟩
            · intro i hi
              by_cases hieq : i = s.rxHead
              · subst hieq
                exact ha s.rxHead (by simp [rxDeliverSlot])
              · apply ha i
                rw [show (rxDeliverSlot N s nb rest).bufs i = s.bufs i from by
                  simp [rxDeliverSlot, hieq]]
                exact hi
            · intro i
              by_cases hieq : i = s.rxHead
              · subst hieq
                right
                rcases hbc s.rxHead with hcase |
                    ⟨old1, nb2, hs1buf, hXbuf, hnb2rest, hne2, len2, hlen2⟩
                · refine ⟨pxBuffer, nb, hb, ?_, hnbpool, hnb_ne _ _ hb,
                    (s.segs s.rxHead).flags &&& XEMACPS_RXBUF_LEN_MASK,
                    List.mem_cons_self _ _⟩
                  rw [hcase]
                  simp [rxDeliverSlot]
                · refine ⟨pxBuffer, nb2, hb, hXbuf, hrestsub _ hnb2rest, ?_,
                    (s.segs s.rxHead).flags &&& XEMACPS_RXBUF_LEN_MASK,
                    List.mem_cons_self _ _⟩
                  intro hEq
                  exact hdisj nb2 (hrestsub _ hnb2rest) s.rxHead
                    (by rw [hb, hEq])
              · rcases hbc i with hcase |
                    ⟨old1, nb2, hs1buf, hXbuf, hnb2rest, hne2, len2, hlen2⟩
                · left
                  rw [hcase]
                  simp [rxDeliverSlot, hieq]
                · right
                  have hsbuf : s.bufs i = some old1 := by
                    rw [show (rxDeliverSlot N s nb rest).bufs i = s.bufs i
                      from by simp [rxDeliverSlot, hieq]] at hs1buf
                    exact hs1buf
                  exact ⟨old1, nb2, hsbuf, hXbuf, hrestsub _ hnb2rest, hne2,
                    len2, List.mem_cons_of_mem _ hlen2⟩
            · intro b len hmem
              rcases List.mem_cons.mp hmem with hEq | hmem2
              · injection hEq with hEq1 hEq2
                subst hEq1
                refine ⟨s.rxHead, hb, ?_⟩
                rcases hbc s.rxHead with hcase |
                    ⟨old1, nb2, hs1buf, hXbuf, hnb2rest, hne2, len2, hlen2⟩
                · refine ⟨nb, ?_, hnb_ne _ _ hb⟩
                  rw [hcase]
                  simp [rxDeliverSlot]
                · refine ⟨nb2, hXbuf, ?_⟩
                  intro hEq3
                  exact hdisj nb2 (hrestsub _ hnb2rest) s.rxHead
                    (by rw [hb, hEq3])
              · obtain ⟨i, hs1buf, nb', hXbuf, hne'⟩ := hc b len hmem2
                by_cases hieq : i = s.rxHead
                · exfalso
                  have hbnb : b = nb := by
                    rw [show (rxDeliverSlot N s nb rest).bufs i = some nb
                      from by simp [rxDeliverSlot, hieq]] at hs1buf
                    injection hs1buf with hs1buf2
                    exact hs1buf2.symm
                  obtain ⟨i2, hN2, hb2⟩ := hg b len hmem2
                  by_cases hieq2 : i2 = s.rxHead
                  · apply hN2
                    rw [hieq2]
                    exact rxRepostSeg_head_new_clear N s nb
                  · have hsb2 : s.bufs i2 = some b := by
                      rw [show (rxDeliverSlot N s nb rest).bufs i2 = s.bufs i2
                        from by simp [rxDeliverSlot, hieq2]] at hb2
                      exact hb2
                    exact hdisj nb hnbpool i2 (by rw [hsb2, hbnb])
                · have hsbuf : s.bufs i = some b := by
                    rw [show (rxDeliverSlot N s nb rest).bufs i = s.bufs i
                      from by simp [rxDeliverSlot, hieq]] at hs1buf
                    exact hs1buf
                  exact ⟨i, hsbuf, nb', hXbuf, hne'⟩
            · intro b len hmem j
              rcases List.mem_cons.mp hmem with hEq | hmem2
              · injection hEq with hEq1 hEq2
                subst hEq1
                rcases hbc j with hcase |
                    ⟨old1, nb2, hs1buf, hXbuf, hnb2rest, hne2, len2, hlen2⟩
                · rw [hcase]
                  by_cases hje : j = s.rxHead
                  · rw [show (rxDeliverSlot N s nb rest).bufs j = some nb
                      from by simp [rxDeliverSlot, hje]]
                    intro hEq3
                    injection hEq3 with hEq4
                    exact hnb_ne _ _ hb hEq4
                  · rw [show (rxDeliverSlot N s nb rest).bufs j = s.bufs j
                      from by simp [rxDeliverSlot, hje]]
                    intro hEq3
                    exact hje (hinj j s.rxHead b hEq3 hb)
                · rw [hXbuf]
                  intro hEq3
                  injection hEq3 with hEq4
                  exact hdisj nb2 (hrestsub _ hnb2rest) s.rxHead
                    (by rw [hb, hEq4])
              · exact hf b len hmem2 j
            · intro b len hmem
              rcases List.mem_cons.mp hmem with hEq | hmem2
              · injection hEq with hEq1 hEq2
                subst hEq1
                exact ⟨s.rxHead, h1, hb⟩
              · obtain ⟨i, hN1, hb1⟩ := hg b len hmem2
                by_cases hieq : i = s.rxHead
                · exfalso
                  apply hN1
                  rw [hieq]
                  exact rxRepostSeg_head_new_clear N s nb
                · have hseq : (rxDeliverSlot N s nb rest).segs i = s.segs i := by
                    simp [rxDeliverSlot, rxRepostSeg, hieq]
                  have hbeq : (rxDeliverSlot N s nb rest).bufs i = s.bufs i := by
                    simp [rxDeliverSlot, hieq]
                  rw [hseq] at hN1
                  rw [hbeq] at hb1
                  exact ⟨i, hN1, hb1⟩
        · have hres : checkRxLoop N pb l n d (k + 1) s =
              checkRxLoop N pb l n d k (rxRecycleSlot N s pxBuffer) := by
            simp [checkRxLoop, h1, hb, hA]
          rw [hres]
          obtain ⟨ha, hbc, hc, hf, hg⟩ :=
            ih (rxRecycleSlot N s pxBuffer) hnd hdisj hinj
          refine ⟨ha, hbc, hc, hf, ?_⟩
          intro b len hmem
          obtain ⟨i, hN1, hb1⟩ := hg b len hmem
          by_cases hieq : i = s.rxHead
          · exfalso
            apply hN1
            rw [hieq]
            exact rxRepostSeg_head_new_clear N s pxBuffer
          · refine ⟨i, ?_, hb1⟩
            have hseq : rxRepostSeg N s pxBuffer i = s.segs i := by
              unfold rxRepostSeg
              rw [if_neg hieq]
            rw [show (rxRecycleSlot N s pxBuffer).segs i =
                rxRepostSeg N s pxBuffer i from rfl, hseq] at hN1
            exact hN1

/-- Claim C6: over one emacps_check_rx call, every slot that held a buffer
still holds one; every slot is either untouched (frame dropped by the filter
or by replacement failure, buffer recycled in place) or its old buffer was
handed to the stack and the slot was re-posted with a fresh buffer taken from
the pool (hence distinct from the old one); and every delivered frame came
from a slot that now holds a different buffer. -/
theorem emacps_check_rx_slot_replacement (N : Nat) (pb : Nat → Bool)
    (l n d : Bool) (s : RxState)
    (hnd : s.pool.Nodup)
    (hdisj : ∀ b, b ∈ s.pool → ∀ i, s.bufs i ≠ some b)
    (hinj : ∀ i j b, s.bufs i = some b → s.bufs j = some b → i = j) :
    (∀ i, (s.bufs i).isSome = true →
      ((emacps_check_rx N pb l n d s).1.bufs i).isSome = true) ∧
    (∀ i, (emacps_check_rx N pb l n d s).1.bufs i = s.bufs i ∨
      ∃ old nb, s.bufs i = some old ∧
        (emacps_check_rx N pb l n d s).1.bufs i = some nb ∧
        nb ∈ s.pool ∧ nb ≠ old ∧
        ∃ len, (old, len) ∈ (emacps_check_rx N pb l n d s).2.1) ∧
    (∀ b len, (b, len) ∈ (emacps_check_rx N pb l n d s).2.1 →
      ∃ i, s.bufs i = some b ∧
        ∃ nb, (emacps_check_rx N pb l n d s).1.bufs i = some nb ∧ nb ≠ b) := by
  obtain ⟨ha, hbc, hc, hf, hg⟩ :=
    checkRxLoop_slots N pb l n d (countNEW N s) s hnd hdisj hinj
  exact ⟨ha, hbc, hc⟩

/-- Witness for C6 at a one-slot ring with a filled descriptor, an accepting
filter and a one-buffer pool: the slot still holds a buffer afterwards. -/
theorem emacps_check_rx_slot_replacement_witness :
    ((emacps_check_rx 1 (fun _ => true) true true true
      rxWitnessState).1.bufs 0).isSome = true :=
  (emacps_check_rx_slot_replacement 1 (fun _ => true) true true true
    rxWitnessState
    (by decide)
    (by
      intro b hbm i
      have hbq : b = { id := 8, packet := dnsDestPacket } := by
        simpa [rxWitnessState] using hbm
      subst hbq
      by_cases hi : i = 0
      · subst hi
        simp [rxWitnessState]
      · simp [rxWitnessState, hi])
    (by
      intro i j b hi hj
      by_cases hi0 : i = 0 <;> by_cases hj0 : j = 0
      · rw [hi0, hj0]
      · exfalso
        simp [rxWitnessState, hj0] at hj
      · exfalso
        simp [rxWitnessState, hi0] at hi
      · exfalso
        simp [rxWitnessState, hi0] at hi)).1 0 (by decide)

theorem mod_sub_of_le (a N : Nat) (h1 : a < 2 * N) (h2 : N ≤ a) :
    a % N = a - N := by
  rw [Nat.mod_eq_sub_mod h2, Nat.mod_eq_of_lt (by omega)]

theorem ringDist_eq (N t i : Nat) (ht : t < N) (hi : i < N) :
    ringDist N t i = if t ≤ i then i - t else i + N - t := by
  unfold ringDist
  split_ifs with h
  · have h1 : i + N - t = (i - t) + N := by omega
    rw [h1, Nat.add_mod_right, Nat.mod_eq_of_lt (by omega)]
  · rw [Nat.mod_eq_of_lt (by omega)]

theorem ringDist_self (N t : Nat) (ht : t < N) : ringDist N t t = 0 := by
  unfold ringDist
  have h1 : t + N - t = N := by omega
  rw [h1, Nat.mod_self]

theorem ringDist_lt (N t i : Nat) (ht : t < N) : ringDist N t i < N := by
  unfold ringDist
  exact Nat.mod_lt _ (by omega)

theorem ringDist_add (N t c : Nat) (ht : t < N) (hc : c < N) :
    ringDist N t ((t + c) % N) = c := by
  by_cases h : t + c < N
  · rw [Nat.mod_eq_of_lt h, ringDist_eq N t (t + c) ht h,
      if_pos (Nat.le_add_right t c)]
    omega
  · have h2 : (t + c) % N = t + c - N := mod_sub_of_le _ _ (by omega) (by omega)
    rw [h2, ringDist_eq N t (t + c - N) ht (by omega), if_neg (by omega)]
    omega

theorem add_ringDist (N t i : Nat) (ht : t < N) (hi : i < N) :
    (t + ringDist N t i) % N = i := by
  rw [ringDist_eq N t i ht hi]
  split_ifs with h
  · have h1 : t + (i - t) = i := by omega
    rw [h1, Nat.mod_eq_of_lt hi]
  · have h1 : t + (i + N - t) = i + N := by omega
    rw [h1, Nat.add_mod_right, Nat.mod_eq_of_lt hi]

theorem ringDist_eq_iff (N t i c : Nat) (ht : t < N) (hi : i < N)
    (hc : c < N) : ringDist N t i = c ↔ i = (t + c) % N := by
  constructor
  · intro h
    rw [← h, add_ringDist N t i ht hi]
  · intro h
    rw [h, ringDist_add N t c ht hc]

theorem ringDist_succ (N t i : Nat) (ht : t < N) (hi : i < N) (hne : i ≠ t) :
    ringDist N ((t + 1) % N) i = ringDist N t i - 1 ∧
    1 ≤ ringDist N t i := by
  by_cases ht1 : t + 1 = N
  · have h0 : (t + 1) % N = 0 := by rw [ht1, Nat.mod_self]
    rw [h0, ringDist_eq N 0 i (by omega) hi, ringDist_eq N t i ht hi,
      if_pos (Nat.zero_le i), if_neg (by omega)]
    omega
  · have h1 : (t + 1) % N = t + 1 := Nat.mod_eq_of_lt (by omega)
    rw [h1, ringDist_eq N (t + 1) i (by omega) hi, ringDist_eq N t i ht hi]
    split_ifs <;> omega

theorem ringDist_succ_self (N t : Nat) (ht : t < N) :
    ringDist N ((t + 1) % N) t = N - 1 := by
  by_cases ht1 : t + 1 = N
  · have h0 : (t + 1) % N = 0 := by rw [ht1, Nat.mod_self]
    rw [h0, ringDist_eq N 0 t (by omega) ht, if_pos (Nat.zero_le t)]
    omega
  · have h1 : (t + 1) % N = t + 1 := Nat.mod_eq_of_lt (by omega)
    rw [h1, ringDist_eq N (t + 1) t (by omega) ht, if_neg (by omega)]
    omega

theorem card_ringDist_lt (N t c : Nat) (ht : t < N) (hc : c ≤ N) :
    ((Finset.range N).filter (fun i => ringDist N t i < c)).card = c := by
  have hcard : ((Finset.range N).filter (fun i => ringDist N t i < c)).card =
      (Finset.range c).card := by
    apply Finset.card_nbij' (fun i => ringDist N t i) (fun b => (t + b) % N)
    · intro a ha
      rw [Finset.mem_filter] at ha
      rw [Finset.mem_range]
      exact ha.2
    · intro b hb
      rw [Finset.mem_range] at hb
      rw [Finset.mem_filter, Finset.mem_range]
      refine ⟨Nat.mod_lt _ (by omega), ?_⟩
      rw [ringDist_add N t b ht (by omega)]
      exact hb
    · intro a ha
      rw [Finset.mem_filter, Finset.mem_range] at ha
      exact add_ringDist N t a ht ha.1
    · intro b hb
      rw [Finset.mem_range] at hb
      exact ringDist_add N t b ht (by omega)
  rw [hcard, Finset.card_range]

theorem and_used_eq_zero_iff (x : Nat) :
    x &&& XEMACPS_TXBUF_USED_MASK = 0 ↔ x.testBit 31 = false := by
  have h : XEMACPS_TXBUF_USED_MASK = 2 ^ 31 := rfl
  rw [h, Nat.and_two_pow]
  cases hx : x.testBit 31 <;> simp

theorem sendFlags_used_clear (len : Nat) (c : Prop) [Decidable c] :
    (XEMACPS_TXBUF_LAST_MASK ||| (len &&& XEMACPS_TXBUF_LEN_MASK) |||
      (if c then XEMACPS_TXBUF_WRAP_MASK else 0)) &&&
      XEMACPS_TXBUF_USED_MASK = 0 := by
  rw [and_used_eq_zero_iff, Nat.testBit_or, Nat.testBit_or, Nat.testBit_and]
  have h1 : XEMACPS_TXBUF_LAST_MASK.testBit 31 = false := by decide
  have h2 : XEMACPS_TXBUF_LEN_MASK.testBit 31 = false := by decide
  have h3 : (if c then XEMACPS_TXBUF_WRAP_MASK else 0).testBit 31 = false := by
    split_ifs
    · decide
    · decide
  rw [h1, h2, h3]
  simp

theorem txInv_init (N : Nat) (hN : 0 < N) : TxInv N (initTxState N) := by
  unfold TxInv initTxState clean_dma_txdescs
  refine ⟨hN, hN, le_rfl, ?_, ?_, ?_⟩
  · simp
  · intro i hi
    simp [hi, Nat.sub_self]
  · intro i hi hflag
    exfalso
    revert hflag
    simp only [hi, if_pos]
    split_ifs
    · decide
    · decide

theorem txInv_send (minF maxF N : Nat) (s : TxState) (len bufId : Nat)
    (rel : Bool) (h : TxInv N s) :
    TxInv N (emacps_send_message minF maxF N s len bufId rel).state := by
  obtain ⟨hh, ht, hc, hhead, hbufs, hused⟩ := h
  unfold emacps_send_message
  by_cases h1 : xValidLength minF maxF len ≠ true
  · rw [if_pos h1]
    exact ⟨hh, ht, hc, hhead, hbufs, hused⟩
  · rw [if_neg h1]
    by_cases h2 : s.semPresent ≠ true
    · rw [if_pos h2]
      exact ⟨hh, ht, hc, hhead, hbufs, hused⟩
    · rw [if_neg h2]
      by_cases h3 : s.credits = 0
      · rw [if_pos h3]
        exact ⟨hh, ht, hc, hhead, hbufs, hused⟩
      · rw [if_neg h3]
        have hcpos : 0 < s.credits := Nat.pos_of_ne_zero h3
        have hN : 0 < N := by omega
        have hclt : N - s.credits < N := by omega
        have hdistH : ringDist N s.tail s.head = N - s.credits := by
          rw [hhead]
          exact ringDist_add N s.tail (N - s.credits) ht hclt
        have hc1 : N - (s.credits - 1) = (N - s.credits) + 1 := by omega
        refine ⟨?_, ht, ?_, ?_, ?_, ?_⟩
        · show (if s.head + 1 = N then 0 else s.head + 1) < N
          split_ifs with h4
          · exact hN
          · omega
        · show s.credits - 1 ≤ N
          omega
        · show (if s.head + 1 = N then 0 else s.head + 1) =
            (s.tail + (N - (s.credits - 1))) % N
          rw [hc1]
          have h5 : s.tail + ((N - s.credits) + 1) =
              (s.tail + (N - s.credits)) + 1 := by omega
          rw [h5]
          have h6 : ((s.tail + (N - s.credits)) + 1) % N = (s.head + 1) % N := by
            conv_rhs => rw [hhead]
            exact (Nat.mod_add_mod _ _ _).symm
          rw [h6]
          split_ifs with h4
          · rw [h4, Nat.mod_self]
          · exact (Nat.mod_eq_of_lt (by omega)).symm
        · intro i hi
          show (if i = s.head then some bufId else s.bufs i).isSome = true ↔
            ringDist N s.tail i < N - (s.credits - 1)
          by_cases hieq : i = s.head
          · subst hieq
            simp only [if_pos rfl]
            rw [hc1]
            simp [hdistH]
          · simp only [if_neg hieq]
            rw [hc1]
            have hne : ringDist N s.tail i ≠ N - s.credits := by
              intro hEq
              apply hieq
              rw [(ringDist_eq_iff N s.tail i (N - s.credits) ht hi hclt).mp
                hEq, ← hhead]
            constructor
            · intro h7
              have := (hbufs i hi).mp h7
              omega
            · intro h7
              exact (hbufs i hi).mpr (by omega)
        · intro i hi hflag
          show (if i = s.head then some bufId else s.bufs i).isSome = true
          by_cases hieq : i = s.head
          · simp only [if_pos hieq]
            rfl
          · simp only [if_neg hieq]
            revert hflag
            show (if i = s.head then _ else s.flags i) &&&
              XEMACPS_TXBUF_USED_MASK = 0 → (s.bufs i).isSome = true
            rw [if_neg hieq]
            exact hused i hi

theorem txInv_dma (N : Nat) (s : TxState) (i : Nat) (h : TxInv N s) :
    TxInv N (dmaSetUsed s i) := by
  obtain ⟨hh, ht, hc, hhead, hbufs, hused⟩ := h
  refine ⟨hh, ht, hc, hhead, hbufs, ?_⟩
  intro j hj
  show (if j = i then s.flags j ||| XEMACPS_TXBUF_USED_MASK else s.flags j) &&&
      XEMACPS_TXBUF_USED_MASK = 0 → (s.bufs j).isSome = true
  by_cases hje : j = i
  · rw [if_pos hje]
    intro hflag
    exfalso
    rw [and_used_eq_zero_iff, Nat.testBit_or] at hflag
    simp [show XEMACPS_TXBUF_USED_MASK.testBit 31 = true from by decide]
      at hflag
  · rw [if_neg hje]
    exact hused j hj

theorem txInv_checkTxLoop (N hd : Nat) :
    ∀ fuel s, TxInv N s → fuel + s.credits = N →
      TxInv N (checkTxLoop N hd fuel s).1 := by
  intro fuel
  induction fuel with
  | zero =>
    intro s h _
    exact h
  | succ k ih =>
    intro s h hsync
    obtain ⟨hh, ht, hc, hhead, hbufs, hused⟩ := h
    by_cases h1 : s.flags s.tail &&& XEMACPS_TXBUF_USED_MASK = 0
    · rw [show checkTxLoop N hd (k + 1) s = (s, []) from by
        simp [checkTxLoop, h1]]
      exact ⟨hh, ht, hc, hhead, hbufs, hused⟩
    · by_cases h2 : s.tail = hd ∧ k + 1 ≠ N
      · rw [show checkTxLoop N hd (k + 1) s = (s, []) from by
          simp [checkTxLoop, h1, h2]]
        exact ⟨hh, ht, hc, hhead, hbufs, hused⟩
      · have hres : (checkTxLoop N hd (k + 1) s).1 =
            (checkTxLoop N hd k (txReclaimSlot N s)).1 := by
          simp [checkTxLoop, h1, h2]
        rw [hres]
        have hcl : s.credits < N := by omega
        have hN : 0 < N := by omega
        have hg : semGive N s.credits = s.credits + 1 := by
          unfold semGive
          omega
        have h6 : (if s.tail + 1 = N then 0 else s.tail + 1) =
            (s.tail + 1) % N := by
          split_ifs with h4
          · rw [h4, Nat.mod_self]
          · exact (Nat.mod_eq_of_lt (by omega)).symm
        apply ih
        · refine ⟨hh, ?_, ?_, ?_, ?_, ?_⟩
          · show (if s.tail + 1 = N then 0 else s.tail + 1) < N
            split_ifs with h4
            · exact hN
            · omega
          · show semGive N s.credits ≤ N
            rw [hg]
            omega
          · show s.head = ((if s.tail + 1 = N then 0 else s.tail + 1) +
              (N - semGive N s.credits)) % N
            rw [hg, h6]
            have h5 : N - (s.credits + 1) = (N - s.credits) - 1 := by omega
            rw [h5, Nat.mod_add_mod]
            have h7 : s.tail + 1 + ((N - s.credits) - 1) =
                s.tail + (N - s.credits) := by omega
            rw [h7, ← hhead]
          · intro i hi
            show (if i = s.tail then none else s.bufs i).isSome = true ↔
              ringDist N (if s.tail + 1 = N then 0 else s.tail + 1) i <
                N - semGive N s.credits
            rw [hg, h6]
            by_cases hieq : i = s.tail
            · subst hieq
              simp only [if_pos rfl]
              rw [ringDist_succ_self N s.tail ht]
              simp
              omega
            · simp only [if_neg hieq]
              obtain ⟨hd1, hd2⟩ := ringDist_succ N s.tail i ht hi hieq
              rw [hd1, hbufs i hi]
              omega
          · intro i hi
            show (if i = s.tail then
                (if s.tail < N - 1 then XEMACPS_TXBUF_USED_MASK
                 else XEMACPS_TXBUF_USED_MASK ||| XEMACPS_TXBUF_WRAP_MASK)
              else s.flags i) &&& XEMACPS_TXBUF_USED_MASK = 0 →
              (if i = s.tail then none else s.bufs i).isSome = true
            by_cases hieq : i = s.tail
            · rw [if_pos hieq, if_pos hieq]
              intro hflag
              exfalso
              revert hflag
              split_ifs
              · decide
              · decide
            · rw [if_neg hieq, if_neg hieq]
              exact hused i hi
        · show k + semGive N s.credits = N
          rw [hg]
          omega

theorem txInv_checkTx (N : Nat) (s : TxState) (h : TxInv N s) :
    TxInv N (emacps_check_tx N s).1 := by
  unfold emacps_check_tx
  refine txInv_checkTxLoop N s.head (N - s.credits) s h ?_
  obtain ⟨-, -, hc, -, -, -⟩ := h
  omega

theorem txInv_step (minF maxF N : Nat) (s t : TxState)
    (hstep : TxStep minF maxF N s t) (h : TxInv N s) : TxInv N t := by
  cases hstep with
  | send len bufId rel => exact txInv_send minF maxF N s len bufId rel h
  | reclaim => exact txInv_checkTx N s h
  | dmaComplete i hi hc2 => exact txInv_dma N s i h

theorem txInv_reachable (minF maxF N : Nat) (s : TxState) (hN : 0 < N)
    (h : TxReachable minF maxF N s) : TxInv N s := by
  unfold TxReachable at h
  induction h with
  | refl => exact txInv_init N hN
  | tail _ hbc ih => exact txInv_step minF maxF N _ _ hbc ih

theorem countUsedZero_le (N : Nat) (s : TxState) (h : TxInv N s) :
    countUsedZero N s ≤ N - s.credits := by
  obtain ⟨hh, ht, hc, hhead, hbufs, hused⟩ := h
  have hsub : ((Finset.range N).filter
      (fun i => s.flags i &&& XEMACPS_TXBUF_USED_MASK = 0)) ⊆
      ((Finset.range N).filter
        (fun i => ringDist N s.tail i < N - s.credits)) := by
    intro i hi
    rw [Finset.mem_filter] at hi ⊢
    refine ⟨hi.1, ?_⟩
    have hiN : i < N := Finset.mem_range.mp hi.1
    exact (hbufs i hiN).mp (hused i hiN hi.2)
  have h1 := Finset.card_le_card hsub
  rw [card_ringDist_lt N s.tail (N - s.credits) ht (by omega)] at h1
  exact h1

/-- Claim C4 amended: in every reachable state of the TX transition system,
the semaphore count lies between 0 and N, and the number of descriptors with
USED clear is at most N minus the semaphore count (a DMA completion sets USED
before emacps_check_tx gives the credit back, so the claimed equality can be
violated in between). -/
theorem tx_reachable_credit_invariant (minF maxF N : Nat) (s : TxState)
    (hN : 0 < N) (h : TxReachable minF maxF N s) :
    s.credits ≤ N ∧ countUsedZero N s ≤ N - s.credits := by
  have hinv := txInv_reachable minF maxF N s hN h
  exact ⟨hinv.2.2.1, countUsedZero_le N s hinv⟩

/-- Witness for the amended C4 at the initial state of the ring of size 2. -/
theorem tx_reachable_credit_invariant_witness :
    (initTxState 2).credits ≤ 2 ∧
    countUsedZero 2 (initTxState 2) ≤ 2 - (initTxState 2).credits :=
  tx_reachable_credit_invariant 42 1526 2 (initTxState 2) (by decide)
    Relation.ReflTransGen.refl

/-- Claim C4 counterexample: publish one frame from the initial ring of size
2, then let DMA complete it.  The state is reachable, the semaphore count is
1 (the credit is not yet given back), but no descriptor has USED clear, so
the claimed equality (number of USED-clear descriptors equals N minus the
semaphore count) fails: 0 is not 1. -/
theorem tx_used_credit_equality_counterexample :
    TxReachable 42 1526 2 completedOnceState ∧
    ¬(countUsedZero 2 completedOnceState =
      2 - completedOnceState.credits) := by
  constructor
  · have h1 : TxStep 42 1526 2 (initTxState 2) sentOnceState := by
      show TxStep 42 1526 2 (initTxState 2)
        (emacps_send_message 42 1526 2 (initTxState 2) 42 7 true).state
      exact TxStep.send (initTxState 2) 42 7 true
    have h2 : TxStep 42 1526 2 sentOnceState completedOnceState := by
      show TxStep 42 1526 2 sentOnceState (dmaSetUsed sentOnceState 0)
      exact TxStep.dmaComplete sentOnceState 0 (by decide) (by decide)
    exact Relation.ReflTransGen.tail (Relation.ReflTransGen.single h1) h2
  · decide

theorem countNEW_repost (N : Nat) (s : RxState) (b : NetBuf) (t : RxState)
    (hh : s.rxHead < N)
    (hnew : (s.segs s.rxHead).address &&& XEMACPS_RXBUF_NEW_MASK ≠ 0)
    (hsegs : t.segs = rxRepostSeg N s b) :
    countNEW N t + 1 = countNEW N s := by
  unfold countNEW
  rw [hsegs]
  have hmem : s.rxHead ∈ (Finset.range N).filter
      (fun i => (s.segs i).address &&& XEMACPS_RXBUF_NEW_MASK ≠ 0) := by
    rw [Finset.mem_filter]
    exact ⟨Finset.mem_range.mpr hh, hnew⟩
  have hset : (Finset.range N).filter
      (fun i => (rxRepostSeg N s b i).address &&&
        XEMACPS_RXBUF_NEW_MASK ≠ 0) =
      ((Finset.range N).filter
        (fun i => (s.segs i).address &&& XEMACPS_RXBUF_NEW_MASK ≠ 0)).erase
        s.rxHead := by
    ext i
    rw [Finset.mem_filter, Finset.mem_erase, Finset.mem_filter]
    constructor
    · rintro ⟨hi, hPi⟩
      by_cases hieq : i = s.rxHead
      · exfalso
        apply hPi
        rw [hieq]
        exact rxRepostSeg_head_new_clear N s b
      · refine ⟨hieq, hi, ?_⟩
        rw [show rxRepostSeg N s b i = s.segs i from by
          unfold rxRepostSeg; rw [if_neg hieq]] at hPi
        exact hPi
    · rintro ⟨hne, hi, hPi⟩
      refine ⟨hi, ?_⟩
      rw [show rxRepostSeg N s b i = s.segs i from by
        unfold rxRepostSeg; rw [if_neg hne]]
      exact hPi
  rw [hset, Finset.card_erase_of_mem hmem]
  have hpos : 0 < ((Finset.range N).filter
      (fun i => (s.segs i).address &&& XEMACPS_RXBUF_NEW_MASK ≠ 0)).card :=
    Finset.card_pos.mpr ⟨s.rxHead, hmem⟩
  omega

theorem checkRxLoop_fuel_stable (N : Nat) (pb : Nat → Bool) (l n d : Bool) :
    ∀ fuel s, s.rxHead < N → countNEW N s ≤ fuel →
      checkRxLoop N pb l n d fuel s = checkRxLoop N pb l n d (fuel + 1) s := by
  intro fuel
  induction fuel with
  | zero =>
    intro s hh hcnt
    have hnew : (s.segs s.rxHead).address &&& XEMACPS_RXBUF_NEW_MASK = 0 := by
      by_contra hne
      have hmem : s.rxHead ∈ (Finset.range N).filter
          (fun i => (s.segs i).address &&& XEMACPS_RXBUF_NEW_MASK ≠ 0) := by
        rw [Finset.mem_filter]
        exact ⟨Finset.mem_range.mpr hh, hne⟩
      have hpos := Finset.card_pos.mpr ⟨s.rxHead, hmem⟩
      unfold countNEW at hcnt
      omega
    rw [show checkRxLoop N pb l n d 0 s = (s, [], 0) from rfl,
      show checkRxLoop N pb l n d 1 s = (s, [], 0) from by
        simp [checkRxLoop, hnew]]
  | succ k ih =>
    intro s hh hcnt
    by_cases h1 : (s.segs s.rxHead).address &&& XEMACPS_RXBUF_NEW_MASK = 0
    · rw [show checkRxLoop N pb l n d (k + 1) s = (s, [], 0) from by
        simp [checkRxLoop, h1],
        show checkRxLoop N pb l n d (k + 1 + 1) s = (s, [], 0) from by
          simp [checkRxLoop, h1]]
    · cases hb : s.bufs s.rxHead with
      | none =>
        rw [show checkRxLoop N pb l n d (k + 1) s = (s, [], 0) from by
          simp [checkRxLoop, h1, hb],
          show checkRxLoop N pb l n d (k + 1 + 1) s = (s, [], 0) from by
            simp [checkRxLoop, h1, hb]]
      | some pxBuffer =>
        by_cases hA : xMayAcceptPacket pb l n d pxBuffer.packet = true
        · by_cases hpe : s.pool = []
          · have hres1 : checkRxLoop N pb l n d (k + 1) s =
                checkRxLoop N pb l n d k (rxRecycleSlot N s pxBuffer) := by
              simp [checkRxLoop, h1, hb, hA, hpe]
            have hres2 : checkRxLoop N pb l n d (k + 1 + 1) s =
                checkRxLoop N pb l n d (k + 1)
                  (rxRecycleSlot N s pxBuffer) := by
              simp [checkRxLoop, h1, hb, hA, hpe]
            rw [hres1, hres2]
            apply ih
            · show (if s.rxHead + 1 = N then 0 else s.rxHead + 1) < N
              split_ifs <;> omega
            · have := countNEW_repost N s pxBuffer
                (rxRecycleSlot N s pxBuffer) hh h1 rfl
              omega
          · obtain ⟨nb, rest, hp⟩ : ∃ a as, s.pool = a :: as := by
              cases hq : s.pool with
              | nil => exact absurd hq hpe
              | cons a as => exact ⟨a, as, rfl⟩
            have hres1 : checkRxLoop N pb l n d (k + 1) s =
                ((checkRxLoop N pb l n d k (rxDeliverSlot N s nb rest)).1,
                  (pxBuffer,
                    (s.segs s.rxHead).flags &&& XEMACPS_RXBUF_LEN_MASK) ::
                    (checkRxLoop N pb l n d k
                      (rxDeliverSlot N s nb rest)).2.1,
                  (checkRxLoop N pb l n d k
                    (rxDeliverSlot N s nb rest)).2.2 + 1) := by
              simp [checkRxLoop, h1, hb, hA, hp]
            have hres2 : checkRxLoop N pb l n d (k + 1 + 1) s =
                ((checkRxLoop N pb l n d (k + 1)
                    (rxDeliverSlot N s nb rest)).1,
                  (pxBuffer,
                    (s.segs s.rxHead).flags &&& XEMACPS_RXBUF_LEN_MASK) ::
                    (checkRxLoop N pb l n d (k + 1)
                      (rxDeliverSlot N s nb rest)).2.1,
                  (checkRxLoop N pb l n d (k + 1)
                    (rxDeliverSlot N s nb rest)).2.2 + 1) := by
              simp [checkRxLoop, h1, hb, hA, hp]
            have hstep := ih (rxDeliverSlot N s nb rest)
              (by
                show (if s.rxHead + 1 = N then 0 else s.rxHead + 1) < N
                split_ifs <;> omega)
              (by
                have := countNEW_repost N s nb
                  (rxDeliverSlot N s nb rest) hh h1 rfl
                omega)
            rw [hres1, hres2, hstep]
        · have hres1 : checkRxLoop N pb l n d (k + 1) s =
              checkRxLoop N pb l n d k (rxRecycleSlot N s pxBuffer) := by
            simp [checkRxLoop, h1, hb, hA]
          have hres2 : checkRxLoop N pb l n d (k + 1 + 1) s =
              checkRxLoop N pb l n d (k + 1)
                (rxRecycleSlot N s pxBuffer) := by
            simp [checkRxLoop, h1, hb, hA]
          rw [hres1, hres2]
          apply ih
          · show (if s.rxHead + 1 = N then 0 else s.rxHead + 1) < N
            split_ifs <;> omega
          · have := countNEW_repost N s pxBuffer
              (rxRecycleSlot N s pxBuffer) hh h1 rfl
            omega

theorem emacps_check_rx_fuel_sound (N : Nat) (pb : Nat → Bool)
    (l n d : Bool) :
    ∀ extra s, s.rxHead < N →
      checkRxLoop N pb l n d (countNEW N s + extra) s =
        emacps_check_rx N pb l n d s := by
  intro extra
  induction extra with
  | zero => intro s _; rfl
  | succ e ih =>
    intro s hh
    have h1 := checkRxLoop_fuel_stable N pb l n d (countNEW N s + e) s hh
      (by omega)
    have h2 : countNEW N s + (e + 1) = countNEW N s + e + 1 := by omega
    rw [h2, ← h1]
    exact ih s hh
